import Mathlib

/-!
Shallow embedding of the core of the `vscode-gitattributes` extension
(`src/extension.ts`, `src/cache.ts`) in Lean 4.

JavaScript strings are modelled as `List Char` (`Str`); buffers of file
content likewise.  The asynchronous, effectful functions are modelled by
explicit state passing: the in-memory cache is a value of type `Cache`,
the file system is an association list from path to content, and the
network (`client.repos.getContent`) is an `Except`-valued input supplied
by the caller.  Base64 decoding is performed by the external `Buffer`
library, so it enters the model as a function parameter.
-/

namespace Gitattributes

/-- JavaScript strings / byte buffers, modelled character by character. -/
abbrev Str := List Char

/-! ### String primitives used by the source

`line.match(new RegExp('\\* text=auto'))` is a literal substring search,
`name.endsWith(s)` a suffix test, and `name.replace(/\.gitattributes/, '')`
removes the leftmost occurrence of the literal pattern. -/

/-- Does `pat` occur at the start of `s`? -/
def strIsPrefixOf : Str → Str → Bool
  | [], _ => true
  | _ :: _, [] => false
  | c :: cs, d :: ds => c == d && strIsPrefixOf cs ds

/-- Does `pat` occur anywhere in `s` (JS `String.match` with a literal
regular expression)? -/
def strContains (pat : Str) : Str → Bool
  | [] => strIsPrefixOf pat []
  | c :: rest => strIsPrefixOf pat (c :: rest) || strContains pat rest

/-- JS `String.endsWith`. -/
def strEndsWith (s suffix : Str) : Bool :=
  strIsPrefixOf suffix.reverse s.reverse

/-- JS `String.replace(pat, '')` with a non-global literal pattern:
remove the leftmost occurrence of `pat`, if any. -/
def replaceFirst (pat : Str) : Str → Str
  | [] => []
  | c :: rest =>
    if strIsPrefixOf pat (c :: rest) then (c :: rest).drop pat.length
    else c :: replaceFirst pat rest

/-- JS `String.split('\n')`, core: returns the first segment and the list
of remaining segments (a split never yields an empty list of segments). -/
def splitNlCore : Str → Str × List Str
  | [] => ([], [])
  | c :: rest =>
    if c = '\n' then ([], (splitNlCore rest).1 :: (splitNlCore rest).2)
    else (c :: (splitNlCore rest).1, (splitNlCore rest).2)

/-- JS `String.split('\n')`: `"".split('\n') = [""]`, and a trailing
line feed yields a trailing empty segment. -/
def splitNl (cs : Str) : List Str :=
  (splitNlCore cs).1 :: (splitNlCore cs).2

/-! ### Deduplication pass (`deduplicate`, `src/extension.ts` lines 214-235)

`deduplicate` reads the whole file, splits it on `'\n'`, and writes each
line back followed by `'\n'`; a line matching `/\* text=auto/` is written
unchanged the first time and replaced by two comment lines afterwards.
It writes to `operation.path + '.new'` and returns that new path. -/

/-- The marker pattern of `deduplicate`: the regex `\* text=auto`,
i.e. the literal substring `* text=auto`. -/
def markerPattern : Str := "* text=auto".toList

/-- The explanatory comment `deduplicate` writes above a repeated marker. -/
def duplicateComment : Str :=
  "# Commented because this line appears before in the file.".toList

/-- `line.match(re)` for the marker regex: the line contains the marker. -/
def lineMatches (line : Str) : Bool := strContains markerPattern line

/-- The loop body of `deduplicate` (newer variant, lines 222-232), with the
`found` flag threaded explicitly. -/
def dedupLinesAux (found : Bool) : List Str → List Str
  | [] => []
  | line :: rest =>
    if !(lineMatches line) then line :: dedupLinesAux found rest
    else if !found then line :: dedupLinesAux true rest
    else duplicateComment :: ("# ".toList ++ line) :: dedupLinesAux found rest

/-- The line transformation of `deduplicate`: `found` starts out `false`. -/
def dedupLines (ls : List Str) : List Str := dedupLinesAux false ls

/-- `deduplicate` on file contents: split on `'\n'`, process the lines,
write each output line followed by `'\n'`. -/
def dedupContent (cs : Str) : Str :=
  ((dedupLines (splitNl cs)).map (fun l => l ++ ['\n'])).flatten

/-- The path `deduplicate` writes to and returns: `operation.path + '.new'`. -/
def dedupNewPath (path : Str) : Str := path ++ ".new".toList

/-! The older variant of `deduplicate` (`src/extension.ts` lines 619-638),
embedded separately from its own source text.  Its loop is a plain
`for (const line of lines)` instead of `for await`, which is the same
sequential traversal of the array of lines. -/

/-- Loop body of the older `deduplicate` variant (lines 626-636). -/
def dedupLinesAuxOld (found : Bool) : List Str → List Str
  | [] => []
  | line :: rest =>
    if !(lineMatches line) then line :: dedupLinesAuxOld found rest
    else if !found then line :: dedupLinesAuxOld true rest
    else duplicateComment :: ("# ".toList ++ line) :: dedupLinesAuxOld found rest

/-- Older variant: line transformation. -/
def dedupLinesOld (ls : List Str) : List Str := dedupLinesAuxOld false ls

/-- Older variant: contents transformation. -/
def dedupContentOld (cs : Str) : Str :=
  ((dedupLinesOld (splitNl cs)).map (fun l => l ++ ['\n'])).flatten

/-- Older variant: returned path, `operation.path + '.new'` (line 621). -/
def dedupNewPathOld (path : Str) : Str := path ++ ".new".toList

/-! ### Data model of the catalog fetcher (`src/extension.ts`)

`GitHubData` keeps the fields the embedded code paths read (`type`,
`name`, `path`, `content`, `encoding`); the metadata fields the code
never touches (`size`, `sha`, the url fields, `_links`) are omitted. -/

/-- The `type` field of a GitHub content entry. -/
inductive GitHubContentType where
  | dir
  | file
  | submodule
  | symlink
deriving DecidableEq

/-- A remote content entry (`interface GitHubData`), restricted to the
fields the code reads.  `content` is `none` when the field is absent. -/
structure GitHubData where
  type : GitHubContentType
  name : Str
  path : Str
  content : Option Str
  encoding : Str
deriving DecidableEq

/-- `interface GitattributesFile`: the normalized descriptor shown in the
quick pick (`label`, `description`) plus the fetch key `url`. -/
structure GitattributesFile where
  label : Str
  description : Str
  url : Str
deriving DecidableEq

/-! ### Expiring cache (`src/cache.ts`) -/

/-- `class CacheItem`: a key, the cached descriptors, and the store time
(`new Date()` at construction; modelled as milliseconds since epoch). -/
structure CacheItem where
  key : Str
  value : List GitattributesFile
  storeDate : Nat
deriving DecidableEq

/-- `CacheItem.isExpired` (cache.ts lines 29-31):
`storeDate.getTime() + expirationInterval * 1000 < Date.now()`, with the
interval in seconds and dates in milliseconds. -/
def CacheItem.isExpired (item : CacheItem) (expirationInterval : Nat) (now : Nat) : Bool :=
  decide (item.storeDate + expirationInterval * 1000 < now)

/-- `class Cache`: the backing store (a JS object mapping key to item)
and the expiration interval in seconds fixed at construction.  The store
is an association list; `Cache.add` conses and lookups take the first
match, which is observationally the property assignment
`this._store[item.key] = item`. -/
structure Cache where
  store : List CacheItem
  cacheExpirationInterval : Nat
deriving DecidableEq

/-- First-match lookup in the backing store (`this._store[key]`). -/
def storeLookup : List CacheItem → Str → Option CacheItem
  | [], _ => none
  | item :: rest, k => if item.key = k then some item else storeLookup rest k

/-- `Cache.add` (cache.ts lines 49-51): store `item` under `item.key`,
shadowing any prior entry. -/
def Cache.add (c : Cache) (item : CacheItem) : Cache :=
  { c with store := item :: c.store }

/-- `Cache.get` (cache.ts lines 53-63): `undefined` when the key is
missing or the entry is expired, the stored value otherwise.  It reads
but never writes the store. -/
def Cache.get (c : Cache) (key : Str) (now : Nat) : Option (List GitattributesFile) :=
  match storeLookup c.store key with
  | none => none
  | some item =>
    if item.isExpired c.cacheExpirationInterval now then none else some item.value

/-! ### Catalog fetcher (`GitattributesRepository.getFiles`, lines 97-146)

The Octokit response is supplied by the caller.  A listing response is an
array of entries; a single-file response is a plain object.  The source's
shape check `!responseData || !responseData.entries` passes exactly for
arrays (every array, the empty one included, has the `entries` method;
a plain object does not), so the two shapes are an explicit sum here.
A transport failure is an `Except.error` carrying the message the `catch`
block rethrows. -/

/-- The two shapes of `response.data` from `client.repos.getContent`. -/
inductive ResponseData where
  | listing (entries : List GitHubData)
  | singleFile (entry : GitHubData)
deriving DecidableEq

/-- The filter of `getFiles` (lines 124-126): keep entries with
`type === 'file'`, name different from the bare `.gitattributes`, and
name ending in `.gitattributes`. -/
def keepsEntry (f : GitHubData) : Bool :=
  f.type == GitHubContentType.file && f.name != ".gitattributes".toList &&
    strEndsWith f.name ".gitattributes".toList

/-- The map of `getFiles` (lines 127-133):
`label = name.replace(/\.gitattributes/, '')` (leftmost occurrence
removed), `description = path`, `url = path`. -/
def toDescriptor (f : GitHubData) : GitattributesFile :=
  { label := replaceFirst ".gitattributes".toList f.name
    description := f.path
    url := f.path }

deriving instance DecidableEq for Except

/-- What one `getFiles` call produced: its return value (or error), the
cache afterwards, and how many network calls it made. -/
structure GetFilesOutcome where
  result : Except Str (List GitattributesFile)
  cache : Cache
  networkCalls : Nat
deriving DecidableEq

/-- `GitattributesRepository.getFiles` (lines 97-146).  On a cache hit
the cached value is returned with no network call; on a miss the
response (one network call) is validated to be a listing, filtered,
mapped, cached under the same key, and returned. -/
def getFiles (cache : Cache) (now : Nat) (path : Str)
    (response : Except Str ResponseData) : GetFilesOutcome :=
  match cache.get ("gitattributes/".toList ++ path) now with
  | some item => ⟨Except.ok item, cache, 0⟩
  | none =>
    match response with
    | Except.error e => ⟨Except.error e, cache, 1⟩
    | Except.ok (ResponseData.singleFile _) =>
      ⟨Except.error "Response sent wrong type.".toList, cache, 1⟩
    | Except.ok (ResponseData.listing entries) =>
      let files := (entries.filter keepsEntry).map toDescriptor
      ⟨Except.ok files,
        cache.add ⟨"gitattributes/".toList ++ path, files, now⟩, 1⟩

/-! ### File system model

`download` and `deduplicate` use `fs.open` (`'w'` truncating/creating,
`'a'` appending/creating), `FileHandle.write`, `fs.readFile`,
`fs.unlink` and `fs.rename`.  The file system is an association list
from path to content. -/

/-- The file system: each existing file's path mapped to its content. -/
abbrev FS := List (Str × Str)

/-- Content of the file at `p`, `none` when no such file exists. -/
def lookupFS : FS → Str → Option Str
  | [], _ => none
  | (k, v) :: rest, p => if k = p then some v else lookupFS rest p

/-- Create the file at `p` with content `c`, or replace its content. -/
def setFS : FS → Str → Str → FS
  | [], p, c => [(p, c)]
  | (k, v) :: rest, p, c =>
    if k = p then (p, c) :: rest else (k, v) :: setFS rest p c

/-- `fs.unlink`: remove the file at `p`. -/
def removeFS : FS → Str → FS
  | [], _ => []
  | (k, v) :: rest, p =>
    if k = p then removeFS rest p else (k, v) :: removeFS rest p

/-- `fs.open(p, 'w')`: truncate, creating the file if needed. -/
def openWriteFS (fs : FS) (p : Str) : FS := setFS fs p []

/-- `fs.open(p, 'a')`: open for append, creating an empty file if the
path does not exist yet. -/
def openAppendFS (fs : FS) (p : Str) : FS :=
  match lookupFS fs p with
  | none => setFS fs p []
  | some _ => fs

/-- `FileHandle.write` on a handle opened with `'w'` or `'a'`: append
`s` to the current content. -/
def writeFS (fs : FS) (p : Str) (s : Str) : FS :=
  setFS fs p ((lookupFS fs p).getD [] ++ s)

/-- `fs.rename(src, dst)`. In the embedded flows `src` always exists. -/
def renameFS (fs : FS) (src dst : Str) : FS :=
  match lookupFS fs src with
  | none => fs
  | some c => setFS (removeFS fs src) dst c

/-! ### Merge engine (`GitattributesRepository.download`, lines 151-208) -/

/-- `enum OperationType`. -/
inductive OperationType where
  | append
  | overwrite
deriving DecidableEq

/-- `interface GitattributesOperation`. -/
structure GitattributesOperation where
  type : OperationType
  path : Str
  file : GitattributesFile
deriving DecidableEq

/-- The errors `download` can reject with: a transport error from
`client.repos.getContent`, the `'Response sent wrong type.'` validation
error (lines 174-176), or a rejection of the cleanup `fs.unlink`
(line 204), which the `catch` block does not guard. -/
inductive DownloadError where
  | remote (msg : Str)
  | wrongType
  | unlinkFail (msg : Str)
deriving DecidableEq

/-- The validation of lines 174-176:
`response.type !== 'file' || !response.content`.  In JS `!content` is
true when the field is absent and also when it is the empty string. -/
def badContent (d : GitHubData) : Bool :=
  d.type != GitHubContentType.file ||
    (match d.content with
     | none => true
     | some c => c.isEmpty)

/-- Lines 178-183: `Buffer.from(content, 'base64')` when the entry
reports base64 encoding, `Buffer.from(content)` otherwise.  The base64
decoder lives in the external `Buffer` library and is a parameter. -/
def decodeContent (b64 : Str → Str) (d : GitHubData) : Str :=
  let raw := (d.content).getD []
  if d.encoding == "base64".toList then b64 raw else raw

/-- The file-level effect of `deduplicate` (lines 214-235): read
`operation.path`, write the transformed lines to `operation.path + '.new'`,
return the new path.  In the embedded flow the source file exists. -/
def dedupFile (fs : FS) (path : Str) : Str × FS :=
  let contents := (lookupFS fs path).getD []
  let newPath := dedupNewPath path
  (newPath, setFS fs newPath (dedupContent contents))

/-- The `catch` block of `download` (lines 201-207): in overwrite mode
(`flags === 'w'`) unlink the target and rethrow; a rejection of the
unlink itself — injected through `cleanupUnlinkErr` — propagates instead
of the original error, because the unlink is not guarded.  In append
mode the original error is rethrown with the file system untouched. -/
def downloadCatch (fs : FS) (op : GitattributesOperation)
    (cleanupUnlinkErr : Option Str) (e : DownloadError) :
    Except DownloadError GitattributesOperation × FS :=
  if op.type = OperationType.overwrite then
    match cleanupUnlinkErr with
    | some u => ⟨Except.error (DownloadError.unlinkFail u), fs⟩
    | none => ⟨Except.error e, removeFS fs op.path⟩
  else ⟨Except.error e, fs⟩

/-- `GitattributesRepository.download` (lines 151-208).  `fetch` is the
outcome of the `client.repos.getContent` call for `operation.file.url`,
`b64` the external base64 decoder, and `cleanupUnlinkErr` injects a
rejection into the cleanup `fs.unlink` of the `catch` block (`none`
means that unlink succeeds).  Returns the settled promise and the file
system afterwards. -/
def download (fs : FS) (op : GitattributesOperation)
    (fetch : Except Str GitHubData) (b64 : Str → Str)
    (cleanupUnlinkErr : Option Str) :
    Except DownloadError GitattributesOperation × FS :=
  let fs1 := if op.type = OperationType.overwrite then openWriteFS fs op.path
             else openAppendFS fs op.path
  let fs2 := if op.type = OperationType.overwrite then fs1
             else writeFS fs1 op.path ['\n']
  match fetch with
  | Except.error e => downloadCatch fs2 op cleanupUnlinkErr (DownloadError.remote e)
  | Except.ok data =>
    if badContent data then
      downloadCatch fs2 op cleanupUnlinkErr DownloadError.wrongType
    else
      let fs3 := writeFS fs2 op.path (decodeContent b64 data)
      if op.type = OperationType.overwrite then ⟨Except.ok op, fs3⟩
      else
        let p := dedupFile fs3 op.path
        let fs5 := removeFS p.2 op.path
        let fs6 := renameFS fs5 p.1 op.path
        ⟨Except.ok op, fs6⟩

/-! ### Spec-side descriptions used to state the claims -/

/-- Spec-side account of the deduplication discipline: each line is
processed in order; a line becomes the two comment lines exactly when it
contains the marker and some line appearing before it in the file
already contains the marker; every other line is written unchanged.
`prev` is the list of lines before the current position. -/
def specDedupFrom (prev : List Str) : List Str → List Str
  | [] => []
  | line :: rest =>
    (if lineMatches line then
       if prev.any lineMatches then [duplicateComment, "# ".toList ++ line]
       else [line]
     else [line]) ++ specDedupFrom (prev ++ [line]) rest

/-- Spec-side deduplication of a whole file's lines. -/
def specDedup (ls : List Str) : List Str := specDedupFrom [] ls

/-- A `download` fetch outcome that makes the `try` block throw: a
transport error, or a response failing the line 174-176 validation. -/
def fetchFails (fetch : Except Str GitHubData) : Bool :=
  match fetch with
  | Except.error _ => true
  | Except.ok d => badContent d

/-- The error the `try` block of `download` throws on a failing fetch
outcome (meaningful only when `fetchFails` holds). -/
def failureError (fetch : Except Str GitHubData) : DownloadError :=
  match fetch with
  | Except.error e => DownloadError.remote e
  | Except.ok _ => DownloadError.wrongType

/-! ### Helper lemmas -/

theorem dedupLinesAux_spec (ls : List Str) :
    ∀ prev : List Str, dedupLinesAux (prev.any lineMatches) ls = specDedupFrom prev ls := by
  induction ls with
  | nil => intro prev; rfl
  | cons line rest ih =>
    intro prev
    have hx := ih (prev ++ [line])
    cases h : lineMatches line <;> cases hp : prev.any lineMatches <;>
      simp [List.any_append, h, hp] at hx <;>
      simp [dedupLinesAux, specDedupFrom, h, hp, hx]

theorem dedupLinesAux_of_no_marker :
    ∀ (ls : List Str) (b : Bool), (∀ l ∈ ls, lineMatches l = false) →
      dedupLinesAux b ls = ls
  | [], _, _ => rfl
  | line :: rest, b, h => by
    have h1 : lineMatches line = false := h line (List.mem_cons_self line rest)
    have h2 : ∀ l ∈ rest, lineMatches l = false :=
      fun l hl => h l (List.mem_cons_of_mem line hl)
    simp [dedupLinesAux, h1, dedupLinesAux_of_no_marker rest b h2]

theorem flatten_map_splitNl (cs : Str) :
    ((splitNl cs).map (fun l => l ++ ['\n'])).flatten = cs ++ ['\n'] := by
  induction cs with
  | nil => rfl
  | cons c rest ih =>
    simp only [splitNl] at ih ⊢
    by_cases h : c = '\n' <;> simp [splitNlCore, h] at ih ⊢ <;> exact ih

theorem lookupFS_setFS_self (fs : FS) (p c : Str) :
    lookupFS (setFS fs p c) p = some c := by
  induction fs with
  | nil => simp [setFS, lookupFS]
  | cons kv rest ih =>
    by_cases h : kv.1 = p <;> simp [setFS, lookupFS, h, ih]

theorem lookupFS_setFS_ne (fs : FS) (p c q : Str) (h : q ≠ p) :
    lookupFS (setFS fs p c) q = lookupFS fs q := by
  have h' : ¬(p = q) := fun hh => h hh.symm
  induction fs with
  | nil => simp [setFS, lookupFS, h']
  | cons kv rest ih =>
    by_cases hk : kv.1 = p
    · simp [setFS, lookupFS, hk, h']
    · by_cases hq : kv.1 = q <;> simp [setFS, lookupFS, hk, hq, h, h', ih]

theorem lookupFS_removeFS_self (fs : FS) (p : Str) :
    lookupFS (removeFS fs p) p = none := by
  induction fs with
  | nil => rfl
  | cons kv rest ih =>
    by_cases h : kv.1 = p <;> simp [removeFS, lookupFS, h, ih]

theorem lookupFS_removeFS_ne (fs : FS) (p q : Str) (h : q ≠ p) :
    lookupFS (removeFS fs p) q = lookupFS fs q := by
  have h' : ¬(p = q) := fun hh => h hh.symm
  induction fs with
  | nil => rfl
  | cons kv rest ih =>
    by_cases hk : kv.1 = p
    · simp [removeFS, lookupFS, hk, h', ih]
    · by_cases hq : kv.1 = q <;> simp [removeFS, lookupFS, hk, hq, h, h', ih]

theorem dedupNewPath_ne (p : Str) : dedupNewPath p ≠ p := by
  intro h
  have hlen := congrArg List.length h
  have h4 : (".new".toList).length = 4 := rfl
  rw [dedupNewPath, List.length_append, h4] at hlen
  omega

theorem lookupFS_openAppendFS_self (fs : FS) (p : Str) :
    lookupFS (openAppendFS fs p) p = some ((lookupFS fs p).getD []) := by
  unfold openAppendFS
  cases h : lookupFS fs p <;> simp [h, lookupFS_setFS_self]

theorem download_overwrite_failure_unlink_ok (fs : FS) (op : GitattributesOperation)
    (fetch : Except Str GitHubData) (b64 : Str → Str)
    (h : op.type = OperationType.overwrite) (hf : fetchFails fetch = true) :
    download fs op fetch b64 none =
      (Except.error (failureError fetch), removeFS (openWriteFS fs op.path) op.path) := by
  cases fetch with
  | error e => simp [download, downloadCatch, h, failureError]
  | ok d =>
    have hb : badContent d = true := by simpa [fetchFails] using hf
    simp [download, downloadCatch, h, failureError, hb]

theorem download_overwrite_failure_unlink_fails (fs : FS) (op : GitattributesOperation)
    (fetch : Except Str GitHubData) (b64 : Str → Str) (u : Str)
    (h : op.type = OperationType.overwrite) (hf : fetchFails fetch = true) :
    download fs op fetch b64 (some u) =
      (Except.error (DownloadError.unlinkFail u), openWriteFS fs op.path) := by
  cases fetch with
  | error e => simp [download, downloadCatch, h]
  | ok d =>
    have hb : badContent d = true := by simpa [fetchFails] using hf
    simp [download, downloadCatch, h, hb]

theorem download_append_failure (fs : FS) (op : GitattributesOperation)
    (fetch : Except Str GitHubData) (b64 : Str → Str) (ue : Option Str)
    (h : op.type = OperationType.append) (hf : fetchFails fetch = true) :
    download fs op fetch b64 ue =
      (Except.error (failureError fetch), writeFS (openAppendFS fs op.path) op.path ['\n']) := by
  cases fetch with
  | error e => simp [download, downloadCatch, h, failureError]
  | ok d =>
    have hb : badContent d = true := by simpa [fetchFails] using hf
    simp [download, downloadCatch, h, failureError, hb]

theorem download_append_success (fs : FS) (op : GitattributesOperation)
    (d : GitHubData) (b64 : Str → Str) (ue : Option Str)
    (h : op.type = OperationType.append) (hb : badContent d = false) :
    (download fs op (Except.ok d) b64 ue).1 = Except.ok op ∧
    lookupFS (download fs op (Except.ok d) b64 ue).2 op.path =
      some (dedupContent ((lookupFS fs op.path).getD [] ++ '\n' :: decodeContent b64 d)) ∧
    lookupFS (download fs op (Except.ok d) b64 ue).2 (dedupNewPath op.path) = none := by
  have hne : dedupNewPath op.path ≠ op.path := dedupNewPath_ne op.path
  have h1 : lookupFS (openAppendFS fs op.path) op.path =
      some ((lookupFS fs op.path).getD []) := lookupFS_openAppendFS_self fs op.path
  have hne2 : op.path ≠ dedupNewPath op.path := Ne.symm hne
  simp [download, h, hb, writeFS, dedupFile, renameFS, lookupFS_setFS_self,
    lookupFS_setFS_ne, lookupFS_removeFS_self, lookupFS_removeFS_ne, h1, hne, hne2]


theorem cache_get_add_within (c : Cache) (k : Str) (v : List GitattributesFile)
    (t now : Nat) (h : now ≤ t + c.cacheExpirationInterval * 1000) :
    Cache.get (c.add ⟨k, v, t⟩) k now = some v := by
  simp [Cache.get, Cache.add, storeLookup, CacheItem.isExpired, Nat.not_lt.mpr h]

theorem dedupLinesAuxOld_eq : ∀ (ls : List Str) (b : Bool),
    dedupLinesAuxOld b ls = dedupLinesAux b ls
  | [], _ => rfl
  | line :: rest, b => by
    simp [dedupLinesAuxOld, dedupLinesAux, dedupLinesAuxOld_eq rest b,
      dedupLinesAuxOld_eq rest true]

/-- C1: `deduplicate` processes lines in original order; a line without
the substring `* text=auto` is written unchanged, the first line with it
is written unchanged, and every line with it that some earlier line of
the file already contains is replaced by the explanatory comment line
followed by the original line prefixed with `# `; on the four-line input
of the claim this yields exactly the claimed five-line output. -/
theorem c1_dedup_line_discipline :
    (∀ ls : List Str, dedupLines ls = specDedup ls) ∧
    dedupLines (["* text=auto", "x", "* text=auto", "y"].map String.toList) =
      ["* text=auto", "x", "# Commented because this line appears before in the file.",
       "# * text=auto", "y"].map String.toList := by
  constructor
  · intro ls
    simpa [dedupLines, specDedup] using dedupLinesAux_spec ls []
  · decide

/-- C2 counterexample: with a one-second expiration interval, an entry
stored at 0 ms and queried at 1000 ms — the instant where `now - storedAt`
equals exactly the expiration interval — is still returned by `Cache.get`,
whereas the claim demands absence at that instant. -/
theorem c2_counterexample_boundary_still_present :
    (1000 : Nat) - 0 = 1 * 1000 ∧
    Cache.get ⟨[⟨"k".toList, [], 0⟩], 1⟩ "k".toList 1000 = some [] ∧
    some ([] : List GitattributesFile) ≠ none := by
  exact ⟨rfl, by decide, by decide⟩

/-- C2 (amended): `get` after `put` within the window returns the value
unchanged; at the instant where `now - storedAt` equals exactly the
expiration interval the value is still returned; `get` is absent exactly
when the key is missing or `now - storedAt` exceeds the interval
strictly; an expired entry is reported absent but remains in the store. -/
theorem c2_cache_get_semantics :
    (∀ (c : Cache) (k : Str) (v : List GitattributesFile) (t now : Nat),
        now ≤ t + c.cacheExpirationInterval * 1000 →
        Cache.get (c.add ⟨k, v, t⟩) k now = some v) ∧
    (∀ (c : Cache) (k : Str) (v : List GitattributesFile) (t : Nat),
        Cache.get (c.add ⟨k, v, t⟩) k (t + c.cacheExpirationInterval * 1000) = some v) ∧
    (∀ (c : Cache) (k : Str) (now : Nat),
        Cache.get c k now = none ↔
          storeLookup c.store k = none ∨
            ∃ item, storeLookup c.store k = some item ∧
              item.storeDate + c.cacheExpirationInterval * 1000 < now) ∧
    (∀ (c : Cache) (k : Str) (item : CacheItem) (now : Nat),
        storeLookup c.store k = some item →
        item.storeDate + c.cacheExpirationInterval * 1000 < now →
        Cache.get c k now = none ∧ storeLookup c.store k = some item) := by
  refine ⟨fun c k v t now h => cache_get_add_within c k v t now h,
    fun c k v t => cache_get_add_within c k v t _ (Nat.le_refl _), ?_, ?_⟩
  · intro c k now
    cases hl : storeLookup c.store k with
    | none => simp [Cache.get, hl]
    | some item =>
      by_cases h : item.storeDate + c.cacheExpirationInterval * 1000 < now <;>
        simp [Cache.get, hl, CacheItem.isExpired, h]
  · intro c k item now hl h
    exact ⟨by simp [Cache.get, hl, CacheItem.isExpired, h], hl⟩

/-- C2 witness: the amended theorem applied at a concrete cache. -/
theorem c2_witness :
    Cache.get (Cache.add ⟨[], 86400⟩ ⟨"k".toList, [], 5⟩) "k".toList 5 = some [] :=
  c2_cache_get_semantics.1 ⟨[], 86400⟩ "k".toList [] 5 5 (by decide)

/-- C3: on a cache hit `getFiles` returns the cached value unchanged,
leaves the cache untouched and makes no network call; and after a
cache-miss call that received a listing, a second call with the same
path within the expiration window makes zero additional network calls
and returns the same result. -/
theorem c3_cache_hit_no_network :
    (∀ (c : Cache) (now : Nat) (p : Str) (resp : Except Str ResponseData)
        (v : List GitattributesFile),
        Cache.get c ("gitattributes/".toList ++ p) now = some v →
        getFiles c now p resp = ⟨Except.ok v, c, 0⟩) ∧
    (∀ (c : Cache) (now now' : Nat) (p : Str) (entries : List GitHubData)
        (resp' : Except Str ResponseData),
        Cache.get c ("gitattributes/".toList ++ p) now = none →
        now' ≤ now + c.cacheExpirationInterval * 1000 →
        getFiles (getFiles c now p (Except.ok (ResponseData.listing entries))).cache
            now' p resp' =
          ⟨(getFiles c now p (Except.ok (ResponseData.listing entries))).result,
           (getFiles c now p (Except.ok (ResponseData.listing entries))).cache, 0⟩) := by
  constructor
  · intro c now p resp v hv
    simp only [getFiles]
    rw [hv]
  · intro c now now' p entries resp' hmiss hwin
    simp only [getFiles]
    rw [hmiss]
    rw [cache_get_add_within c ("gitattributes/".toList ++ p)
      ((entries.filter keepsEntry).map toDescriptor) now now' hwin]

/-- C3 witness: a concrete cache hit returns the cached descriptor with
zero network calls. -/
theorem c3_witness :
    getFiles ⟨[⟨"gitattributes/".toList, [⟨"a".toList, "p".toList, "p".toList⟩], 0⟩], 86400⟩
        0 [] (Except.error []) =
      ⟨Except.ok [⟨"a".toList, "p".toList, "p".toList⟩],
       ⟨[⟨"gitattributes/".toList, [⟨"a".toList, "p".toList, "p".toList⟩], 0⟩], 86400⟩, 0⟩ :=
  c3_cache_hit_no_network.1
    ⟨[⟨"gitattributes/".toList, [⟨"a".toList, "p".toList, "p".toList⟩], 0⟩], 86400⟩
    0 [] (Except.error []) [⟨"a".toList, "p".toList, "p".toList⟩] (by decide)

/-- C4 counterexample: the listing entry named
`.gitattributesX.gitattributes` passes the filter, and the source's
`name.replace(/\.gitattributes/, '')` removes the leftmost occurrence,
producing the label `X.gitattributes`, not the trailing-suffix removal
`.gitattributesX` the claim describes. -/
theorem c4_counterexample_first_occurrence :
    (getFiles ⟨[], 86400⟩ 0 [] (Except.ok (ResponseData.listing
        [⟨GitHubContentType.file, ".gitattributesX.gitattributes".toList,
          "p".toList, none, []⟩]))).result =
      Except.ok [⟨"X.gitattributes".toList, "p".toList, "p".toList⟩] ∧
    "X.gitattributes".toList ≠ ".gitattributesX".toList := by
  exact ⟨by decide, by decide⟩

/-- C4 (amended): on a cache miss with a listing response, `getFiles`
keeps exactly the file-typed entries named differently from bare
`.gitattributes` and ending in `.gitattributes`, in original order, and
labels each with its name with the FIRST occurrence of `.gitattributes`
removed (for names containing it only as the trailing suffix this equals
removing that suffix), with description and url the entry's path; on the
claim's four-entry listing this yields labels `a` and `c` in order. -/
theorem c4_listing_filter_map :
    (∀ (c : Cache) (now : Nat) (p : Str) (entries : List GitHubData),
        Cache.get c ("gitattributes/".toList ++ p) now = none →
        (getFiles c now p (Except.ok (ResponseData.listing entries))).result =
          Except.ok ((entries.filter (fun f =>
              f.type == GitHubContentType.file &&
                f.name != ".gitattributes".toList &&
                strEndsWith f.name ".gitattributes".toList)).map (fun f =>
            { label := replaceFirst ".gitattributes".toList f.name
              description := f.path
              url := f.path }))) ∧
    (getFiles ⟨[], 86400⟩ 0 [] (Except.ok (ResponseData.listing
        [⟨GitHubContentType.file, "a.gitattributes".toList, "pa".toList, none, []⟩,
         ⟨GitHubContentType.file, ".gitattributes".toList, "pb".toList, none, []⟩,
         ⟨GitHubContentType.file, "b.txt".toList, "pc".toList, none, []⟩,
         ⟨GitHubContentType.file, "c.gitattributes".toList, "pd".toList, none, []⟩]))).result =
      Except.ok [⟨"a".toList, "pa".toList, "pa".toList⟩,
                 ⟨"c".toList, "pd".toList, "pd".toList⟩] := by
  constructor
  · intro c now p entries hmiss
    simp only [getFiles]
    rw [hmiss]
    rfl
  · decide

/-- C4 witness: the amended filter/map theorem applied to a concrete
singleton listing on an empty cache. -/
theorem c4_witness :
    (getFiles ⟨[], 86400⟩ 7 [] (Except.ok (ResponseData.listing
        [⟨GitHubContentType.file, "Web.gitattributes".toList, "q".toList, none, []⟩]))).result =
      Except.ok ((([⟨GitHubContentType.file, "Web.gitattributes".toList, "q".toList,
          none, []⟩] : List GitHubData).filter (fun f =>
            f.type == GitHubContentType.file &&
              f.name != ".gitattributes".toList &&
              strEndsWith f.name ".gitattributes".toList)).map (fun f =>
        { label := replaceFirst ".gitattributes".toList f.name
          description := f.path
          url := f.path })) :=
  c4_listing_filter_map.1 ⟨[], 86400⟩ 7 []
    [⟨GitHubContentType.file, "Web.gitattributes".toList, "q".toList, none, []⟩] (by decide)

/-- C5 counterexample: the one-line input `x` contains no marker line,
yet `deduplicate` produces `x` followed by a line feed, not the
byte-for-byte identical input. -/
theorem c5_counterexample_trailing_newline :
    (∀ l ∈ splitNl "x".toList, lineMatches l = false) ∧
    dedupContent "x".toList = "x\n".toList ∧
    dedupContent "x".toList ≠ "x".toList := by
  exact ⟨by decide, by decide, by decide⟩

/-- C5 (amended): on input with no line containing `* text=auto`, the
deduplication pass returns the input with exactly one line feed
appended (so it is not byte-for-byte identity and not idempotent: each
run appends one more line feed). -/
theorem c5_no_marker_appends_newline :
    ∀ cs : Str, (∀ l ∈ splitNl cs, lineMatches l = false) →
      dedupContent cs = cs ++ ['\n'] := by
  intro cs h
  unfold dedupContent dedupLines
  rw [dedupLinesAux_of_no_marker (splitNl cs) false h, flatten_map_splitNl]

/-- C5 witness: the amended theorem at the concrete marker-free input
`a\nb`. -/
theorem c5_witness : dedupContent "a\nb".toList = "a\nb".toList ++ ['\n'] :=
  c5_no_marker_appends_newline "a\nb".toList (by decide)

/-- C6 counterexample: in overwrite mode, when the fetch fails and the
cleanup `fs.unlink` itself rejects, `download` rejects with the unlink
error instead of the original fetch error — the delete failure IS
surfaced over the original error, contrary to the claim. -/
theorem c6_counterexample_unlink_error_surfaced :
    (download [("t".toList, "old".toList)]
        ⟨OperationType.overwrite, "t".toList, ⟨[], [], "u".toList⟩⟩
        (Except.error "boom".toList) id (some "EACCES".toList)).1 =
      Except.error (DownloadError.unlinkFail "EACCES".toList) ∧
    Except.error (DownloadError.unlinkFail "EACCES".toList) ≠
      (Except.error (DownloadError.remote "boom".toList) :
        Except DownloadError GitattributesOperation) := by
  exact ⟨by decide, by decide⟩

/-- C6 (amended): in overwrite mode, on any failure after the target was
opened, `download` attempts to delete the target before rethrowing; when
the delete succeeds the target does not exist afterwards and the
original error is rethrown, but a failure of the delete replaces the
original error (the unlink is not guarded); in append mode no cleanup
deletion occurs — the target survives with the injected separator. -/
theorem c6_cleanup_semantics :
    ∀ (fs : FS) (op : GitattributesOperation) (fetch : Except Str GitHubData)
      (b64 : Str → Str),
      fetchFails fetch = true →
      ((op.type = OperationType.overwrite →
          (download fs op fetch b64 none).1 = Except.error (failureError fetch) ∧
          lookupFS (download fs op fetch b64 none).2 op.path = none) ∧
       (∀ u : Str, op.type = OperationType.overwrite →
          (download fs op fetch b64 (some u)).1 =
            Except.error (DownloadError.unlinkFail u) ∧
          lookupFS (download fs op fetch b64 (some u)).2 op.path = some []) ∧
       (∀ ue : Option Str, op.type = OperationType.append →
          (download fs op fetch b64 ue).1 = Except.error (failureError fetch) ∧
          lookupFS (download fs op fetch b64 ue).2 op.path =
            some ((lookupFS fs op.path).getD [] ++ ['\n']))) := by
  intro fs op fetch b64 hf
  refine ⟨fun h => ?_, fun u h => ?_, fun ue h => ?_⟩
  · rw [download_overwrite_failure_unlink_ok fs op fetch b64 h hf]
    exact ⟨rfl, lookupFS_removeFS_self _ _⟩
  · rw [download_overwrite_failure_unlink_fails fs op fetch b64 u h hf]
    exact ⟨rfl, by simp [openWriteFS, lookupFS_setFS_self]⟩
  · rw [download_append_failure fs op fetch b64 ue h hf]
    exact ⟨rfl, by simp [writeFS, lookupFS_setFS_self, lookupFS_openAppendFS_self]⟩

/-- C6 witness: the amended theorem at a concrete overwrite operation
whose fetch fails and whose cleanup unlink succeeds. -/
theorem c6_witness :
    (download [("t".toList, "old".toList)]
        ⟨OperationType.overwrite, "t".toList, ⟨[], [], "u".toList⟩⟩
        (Except.error "boom".toList) id none).1 =
      Except.error (failureError (Except.error "boom".toList)) ∧
    lookupFS (download [("t".toList, "old".toList)]
        ⟨OperationType.overwrite, "t".toList, ⟨[], [], "u".toList⟩⟩
        (Except.error "boom".toList) id none).2 "t".toList = none :=
  (c6_cleanup_semantics [("t".toList, "old".toList)]
    ⟨OperationType.overwrite, "t".toList, ⟨[], [], "u".toList⟩⟩
    (Except.error "boom".toList) id (by decide)).1 rfl

/-- C7: in append mode `download` writes exactly one line-feed separator
into the target before fetching; on a failing fetch the separator
remains appended to the pre-existing content, and on success the final
target is the deduplication of the original content, the single
injected separator, and the decoded fetched content, in that order. -/
theorem c7_append_separator :
    ∀ (fs : FS) (op : GitattributesOperation) (b64 : Str → Str) (ue : Option Str),
      op.type = OperationType.append →
      ((∀ fetch : Except Str GitHubData, fetchFails fetch = true →
          lookupFS (download fs op fetch b64 ue).2 op.path =
            some ((lookupFS fs op.path).getD [] ++ ['\n'])) ∧
       (∀ d : GitHubData, badContent d = false →
          lookupFS (download fs op (Except.ok d) b64 ue).2 op.path =
            some (dedupContent
              ((lookupFS fs op.path).getD [] ++ '\n' :: decodeContent b64 d)))) := by
  intro fs op b64 ue h
  constructor
  · intro fetch hf
    rw [download_append_failure fs op fetch b64 ue h hf]
    simp [writeFS, lookupFS_setFS_self, lookupFS_openAppendFS_self]
  · intro d hb
    exact (download_append_success fs op d b64 ue h hb).2.1

/-- C7 witness: at a concrete append operation, both the failing-fetch
and the successful-fetch conclusions, with explicit file contents. -/
theorem c7_witness :
    lookupFS (download [("t".toList, "z".toList)]
        ⟨OperationType.append, "t".toList, ⟨[], [], "u".toList⟩⟩
        (Except.error "boom".toList) id none).2 "t".toList =
      some ("z".toList ++ ['\n']) ∧
    lookupFS (download [("t".toList, "z".toList)]
        ⟨OperationType.append, "t".toList, ⟨[], [], "u".toList⟩⟩
        (Except.ok ⟨GitHubContentType.file, "n".toList, "p".toList,
          some "w".toList, []⟩) id none).2 "t".toList =
      some (dedupContent ("z".toList ++ '\n' :: "w".toList)) := by
  constructor
  · have h := (c7_append_separator [("t".toList, "z".toList)]
      ⟨OperationType.append, "t".toList, ⟨[], [], "u".toList⟩⟩ id none rfl).1
      (Except.error "boom".toList) (by decide)
    simpa using h
  · have h := (c7_append_separator [("t".toList, "z".toList)]
      ⟨OperationType.append, "t".toList, ⟨[], [], "u".toList⟩⟩ id none rfl).2
      ⟨GitHubContentType.file, "n".toList, "p".toList, some "w".toList, []⟩ (by decide)
    simpa [decodeContent] using h

/-- C8: on a cache miss, a single-file (non-sequence) response makes
`getFiles` fail with `Response sent wrong type.` without returning
descriptors, while every listing response — the empty one included —
passes the validation and yields a successful result. -/
theorem c8_response_shape_validation :
    (∀ (c : Cache) (now : Nat) (p : Str) (e : GitHubData),
        Cache.get c ("gitattributes/".toList ++ p) now = none →
        getFiles c now p (Except.ok (ResponseData.singleFile e)) =
          ⟨Except.error "Response sent wrong type.".toList, c, 1⟩) ∧
    (∀ (c : Cache) (now : Nat) (p : Str) (entries : List GitHubData),
        Cache.get c ("gitattributes/".toList ++ p) now = none →
        ∃ files, (getFiles c now p (Except.ok (ResponseData.listing entries))).result =
          Except.ok files) := by
  constructor
  · intro c now p e hmiss
    simp only [getFiles]
    rw [hmiss]
  · intro c now p entries hmiss
    refine ⟨(entries.filter keepsEntry).map toDescriptor, ?_⟩
    simp only [getFiles]
    rw [hmiss]

/-- C8 witness: a concrete single-file response fails with the format
error, and the concrete empty listing passes validation. -/
theorem c8_witness :
    getFiles ⟨[], 86400⟩ 3 []
        (Except.ok (ResponseData.singleFile
          ⟨GitHubContentType.file, "n".toList, "p".toList, some "w".toList, []⟩)) =
      ⟨Except.error "Response sent wrong type.".toList, ⟨[], 86400⟩, 1⟩ ∧
    ∃ files, (getFiles ⟨[], 86400⟩ 3 []
        (Except.ok (ResponseData.listing []))).result = Except.ok files :=
  ⟨c8_response_shape_validation.1 ⟨[], 86400⟩ 3 []
      ⟨GitHubContentType.file, "n".toList, "p".toList, some "w".toList, []⟩ (by decide),
   c8_response_shape_validation.2 ⟨[], 86400⟩ 3 [] [] (by decide)⟩

/-- C9: in overwrite mode on a path where a file already existed, any
failure of the fetch (or of its validation) makes `download` delete the
target — the cleanup is keyed on the mode flag, not on whether the file
was freshly created — leaving no target file behind and rethrowing the
original error. -/
theorem c9_overwrite_preexisting_deleted :
    ∀ (fs : FS) (op : GitattributesOperation) (fetch : Except Str GitHubData)
      (b64 : Str → Str) (old : Str),
      op.type = OperationType.overwrite →
      lookupFS fs op.path = some old →
      fetchFails fetch = true →
      (download fs op fetch b64 none).1 = Except.error (failureError fetch) ∧
      lookupFS (download fs op fetch b64 none).2 op.path = none := by
  intro fs op fetch b64 old h hpre hf
  rw [download_overwrite_failure_unlink_ok fs op fetch b64 h hf]
  exact ⟨rfl, lookupFS_removeFS_self _ _⟩

/-- C9 witness: the theorem at a concrete pre-existing target file. -/
theorem c9_witness :
    (download [("t".toList, "old".toList)]
        ⟨OperationType.overwrite, "t".toList, ⟨[], [], "u".toList⟩⟩
        (Except.error "boom".toList) id none).1 =
      Except.error (failureError (Except.error "boom".toList)) ∧
    lookupFS (download [("t".toList, "old".toList)]
        ⟨OperationType.overwrite, "t".toList, ⟨[], [], "u".toList⟩⟩
        (Except.error "boom".toList) id none).2 "t".toList = none :=
  c9_overwrite_preexisting_deleted [("t".toList, "old".toList)]
    ⟨OperationType.overwrite, "t".toList, ⟨[], [], "u".toList⟩⟩
    (Except.error "boom".toList) id "old".toList rfl (by decide) (by decide)

/-- C10: the two `deduplicate` implementations in the source transform
lines identically, produce identical output file contents on every
input, and return the same new path (the original path with `.new`
appended). -/
theorem c10_variants_equivalent :
    (∀ ls : List Str, dedupLinesOld ls = dedupLines ls) ∧
    (∀ cs : Str, dedupContentOld cs = dedupContent cs) ∧
    (∀ p : Str, dedupNewPathOld p = dedupNewPath p) := by
  refine ⟨fun ls => ?_, fun cs => ?_, fun p => rfl⟩
  · simp [dedupLinesOld, dedupLines, dedupLinesAuxOld_eq]
  · simp [dedupContentOld, dedupContent, dedupLinesOld, dedupLines, dedupLinesAuxOld_eq]

end Gitattributes
